import Mathlib

/-!
Verification of the API test-helper layer of the repository: retry with
exponential backoff, polling with timeout, concurrency-bounded batch
dispatch, request/response interception with statistics, and response
validation.  The TypeScript sources are embedded shallowly: asynchronous
operations become functions from the attempt/poll index to their outcome,
the event loop's clock becomes explicit `Nat` time, and thrown exceptions
become `Except` values.
-/

/-! ### Retry executor (`APITestHelpers.retryRequest`)

The wrapped operation `requestFn` is modelled as a function from the
attempt index to its outcome: either a response with an observable HTTP
status, or a thrown error carrying a message.  The embedding records,
besides the final result, how many times `requestFn` was invoked
(`calls`) and the list of back-off delays slept, in order (`sleeps`).

The TypeScript loop is `for (let attempt = 0; attempt <= maxRetries;
attempt++)`; the embedding carries the remaining number of loop
iterations as the structural argument `fuel`, starting from
`maxRetries + 1` with `attempt = 0` (so `fuel = 0` is exactly the loop
condition `attempt > maxRetries` failing).  After the loop the source
throws `lastError || new Error('Request failed after retries')`. -/

inductive AttemptOutcome where
  | ok (status : Nat)
  | err (msg : String)
deriving DecidableEq, Repr

structure RetryTrace where
  result : Except String Nat
  calls : Nat
  sleeps : List Nat
deriving Repr

def retryLoop (requestFn : Nat → AttemptOutcome) (maxRetries retryDelay : Nat)
    (retryOn : List Nat) : Nat → Nat → Option String → RetryTrace
  | 0, _attempt, lastError =>
      { result := .error (lastError.getD "Request failed after retries"),
        calls := 0, sleeps := [] }
  | fuel + 1, attempt, lastError =>
      match requestFn attempt with
      | .ok status =>
          -- `if (retryOn.includes(response.status()) && attempt < maxRetries)`
          if status ∈ retryOn ∧ attempt < maxRetries then
            let r := retryLoop requestFn maxRetries retryDelay retryOn fuel
              (attempt + 1) lastError
            { result := r.result, calls := r.calls + 1,
              sleeps := retryDelay * 2 ^ attempt :: r.sleeps }
          else
            { result := .ok status, calls := 1, sleeps := [] }
      | .err m =>
          -- `catch`: record `lastError`; sleep only when attempts remain
          if attempt < maxRetries then
            let r := retryLoop requestFn maxRetries retryDelay retryOn fuel
              (attempt + 1) (some m)
            { result := r.result, calls := r.calls + 1,
              sleeps := retryDelay * 2 ^ attempt :: r.sleeps }
          else
            let r := retryLoop requestFn maxRetries retryDelay retryOn fuel
              (attempt + 1) (some m)
            { result := r.result, calls := r.calls + 1, sleeps := r.sleeps }

def retryRequest (requestFn : Nat → AttemptOutcome) (maxRetries retryDelay : Nat)
    (retryOn : List Nat) : RetryTrace :=
  retryLoop requestFn maxRetries retryDelay retryOn (maxRetries + 1) 0 none

theorem retryLoop_calls_le (requestFn : Nat → AttemptOutcome)
    (maxRetries retryDelay : Nat) (retryOn : List Nat) :
    ∀ fuel attempt lastError,
      (retryLoop requestFn maxRetries retryDelay retryOn fuel attempt lastError).calls
        ≤ fuel := by
  intro fuel
  induction fuel with
  | zero => intro attempt lastError; simp [retryLoop]
  | succ n ih =>
      intro attempt lastError
      simp only [retryLoop]
      cases requestFn attempt with
      | ok status =>
          by_cases h : status ∈ retryOn ∧ attempt < maxRetries
          · simp only [if_pos h]
            exact Nat.succ_le_succ (ih (attempt + 1) lastError)
          · simp only [if_neg h]
            exact Nat.succ_le_succ (Nat.zero_le n)
      | err m =>
          by_cases h : attempt < maxRetries
          · simp only [if_pos h]
            exact Nat.succ_le_succ (ih (attempt + 1) (some m))
          · simp only [if_neg h]
            exact Nat.succ_le_succ (ih (attempt + 1) (some m))

/-- C2: for every configured `maxRetries = N`, `retryRequest` invokes the
wrapped operation at most `N + 1` times, and with zero retries configured
it performs exactly one attempt and never sleeps. -/
theorem retryRequest_attempt_bound (requestFn : Nat → AttemptOutcome)
    (maxRetries retryDelay : Nat) (retryOn : List Nat) :
    (retryRequest requestFn maxRetries retryDelay retryOn).calls ≤ maxRetries + 1
    ∧ (maxRetries = 0 →
        (retryRequest requestFn maxRetries retryDelay retryOn).calls = 1
        ∧ (retryRequest requestFn maxRetries retryDelay retryOn).sleeps = []) := by
  constructor
  · exact retryLoop_calls_le requestFn maxRetries retryDelay retryOn (maxRetries + 1) 0 none
  · intro h
    subst h
    simp only [retryRequest, retryLoop]
    cases requestFn 0 with
    | ok status => simp [retryLoop]
    | err m => simp [retryLoop]

/-- Witness for C2 at a concrete input: with zero retries configured and an
operation answering status 503, exactly one attempt is made and no delay
is slept. -/
theorem retryRequest_attempt_bound_witness :
    (retryRequest (fun _ => AttemptOutcome.ok 503) 0 1000 [500, 502, 503, 504]).calls = 1
    ∧ (retryRequest (fun _ => AttemptOutcome.ok 503) 0 1000 [500, 502, 503, 504]).sleeps = [] :=
  (retryRequest_attempt_bound (fun _ => AttemptOutcome.ok 503) 0 1000 [500, 502, 503, 504]).2 rfl

theorem retryLoop_sleeps_schedule (requestFn : Nat → AttemptOutcome)
    (maxRetries retryDelay : Nat) (retryOn : List Nat) :
    ∀ fuel attempt lastError, attempt + fuel ≤ maxRetries + 1 →
      ∃ n, (retryLoop requestFn maxRetries retryDelay retryOn fuel attempt lastError).sleeps
        = (List.range n).map (fun k => retryDelay * 2 ^ (attempt + k)) := by
  intro fuel
  induction fuel with
  | zero => intro attempt lastError _; exact ⟨0, by simp [retryLoop]⟩
  | succ m ih =>
      intro attempt lastError hinv
      simp only [retryLoop]
      have hstep : attempt + 1 + m ≤ maxRetries + 1 := by omega
      have hshift : ∀ n, retryDelay * 2 ^ attempt
            :: (List.range n).map (fun k => retryDelay * 2 ^ (attempt + 1 + k))
          = (List.range (n + 1)).map (fun k => retryDelay * 2 ^ (attempt + k)) := by
        intro n
        rw [List.range_succ_eq_map, List.map_cons, List.map_map]
        refine congrArg₂ _ (by simp) (List.map_congr_left ?_)
        intro k _
        simp only [Function.comp_apply]
        congr 1
        congr 1
        omega
      cases requestFn attempt with
      | ok status =>
          by_cases h : status ∈ retryOn ∧ attempt < maxRetries
          · simp only [if_pos h]
            obtain ⟨n, hn⟩ := ih (attempt + 1) lastError hstep
            exact ⟨n + 1, by rw [hn]; exact hshift n⟩
          · simp only [if_neg h]
            exact ⟨0, by simp⟩
      | err msg =>
          by_cases h : attempt < maxRetries
          · simp only [if_pos h]
            obtain ⟨n, hn⟩ := ih (attempt + 1) (some msg) hstep
            exact ⟨n + 1, by rw [hn]; exact hshift n⟩
          · simp only [if_neg h]
            -- last attempt threw: the loop exits without sleeping again, and the
            -- invariant forces the remaining fuel to zero
            have hm : m = 0 := by omega
            subst hm
            exact ⟨0, by simp [retryLoop]⟩

/-- C3: the delays slept by `retryRequest`, in order, follow the exponential
backoff schedule `retryDelay * 2 ^ k` for `k = 0, 1, …` — whether the retried
attempt threw or returned a retriable status — so the delay before the first
retry equals the base delay. -/
theorem retryRequest_backoff_schedule (requestFn : Nat → AttemptOutcome)
    (maxRetries retryDelay : Nat) (retryOn : List Nat) :
    (retryRequest requestFn maxRetries retryDelay retryOn).sleeps
      = (List.range (retryRequest requestFn maxRetries retryDelay retryOn).sleeps.length).map
          (fun k => retryDelay * 2 ^ k) := by
  obtain ⟨n, hn⟩ := retryLoop_sleeps_schedule requestFn maxRetries retryDelay retryOn
    (maxRetries + 1) 0 none (by omega)
  rw [retryRequest] at *
  rw [hn]
  simp

/-! ### Poller (`APITestHelpers.pollUntil`)

The polled operation is a function from the poll index to its response
(of an arbitrary type `α`, `APIResponse` being opaque); the predicate is
a Boolean function on responses.  The event-loop clock is explicit: the
loop re-checks `Date.now() - startTime < timeout` before each poll and
sleeps `interval` between polls, so `elapsed` advances by `interval`
per iteration.  The default option values in the source are
`timeout = 30000` and `interval = 1000`; a positive interval is required
for the loop to terminate (the physical clock always advances).  On
timeout the source throws
`new Error(options.errorMessage || `Polling timeout after ${timeout}ms`)`;
JS `||` falls back to the right operand when the left one is falsy, which
for an optional string means both `undefined` and the empty string. -/

/-- JS `s || fallback` on an optional string: `undefined` and `""` are falsy. -/
def jsOrElse (s : Option String) (fallback : String) : String :=
  match s with
  | some m => if m = "" then fallback else m
  | none => fallback

def pollLoop {α : Type} (requestFn : Nat → α) (conditionFn : α → Bool)
    (timeout interval : Nat) (hInt : 0 < interval) (errorMessage : Option String)
    (i elapsed : Nat) : Except String α :=
  if elapsed < timeout then
    let response := requestFn i
    if conditionFn response then
      .ok response
    else
      pollLoop requestFn conditionFn timeout interval hInt errorMessage
        (i + 1) (elapsed + interval)
  else
    .error (jsOrElse errorMessage ("Polling timeout after " ++ toString timeout ++ "ms"))
termination_by timeout - elapsed
decreasing_by omega

def pollUntil {α : Type} (requestFn : Nat → α) (conditionFn : α → Bool)
    (timeout interval : Nat) (hInt : 0 < interval)
    (errorMessage : Option String) : Except String α :=
  pollLoop requestFn conditionFn timeout interval hInt errorMessage 0 0

theorem pollLoop_ok_cond {α : Type} (requestFn : Nat → α) (conditionFn : α → Bool)
    (timeout interval : Nat) (hInt : 0 < interval) (errorMessage : Option String) :
    ∀ fuel i elapsed r, timeout - elapsed = fuel →
      pollLoop requestFn conditionFn timeout interval hInt errorMessage i elapsed = .ok r →
      conditionFn r = true := by
  intro fuel
  induction fuel using Nat.strong_induction_on with
  | _ fuel ih =>
      intro i elapsed r hfuel h
      rw [pollLoop] at h
      by_cases h1 : elapsed < timeout
      · simp only [if_pos h1] at h
        by_cases h2 : conditionFn (requestFn i) = true
        · simp only [if_pos h2] at h
          cases h
          exact h2
        · simp only [if_neg h2] at h
          exact ih (timeout - (elapsed + interval)) (by omega) (i + 1)
            (elapsed + interval) r rfl h
      · simp only [if_neg h1] at h
        exact Except.noConfusion h

/-- C8: whenever `pollUntil` returns a result rather than raising, the
caller-supplied predicate evaluated to `true` on that result; it never
returns a response for which the predicate is false. -/
theorem pollUntil_result_satisfies_predicate {α : Type} (requestFn : Nat → α)
    (conditionFn : α → Bool) (timeout interval : Nat) (hInt : 0 < interval)
    (errorMessage : Option String) (r : α)
    (h : pollUntil requestFn conditionFn timeout interval hInt errorMessage = .ok r) :
    conditionFn r = true :=
  pollLoop_ok_cond requestFn conditionFn timeout interval hInt errorMessage
    (timeout - 0) 0 0 r rfl h

/-- Witness for C8 at a concrete input: polling the constant response `7`
with predicate "equals 7" returns `7`, on which the predicate holds. -/
theorem pollUntil_result_satisfies_predicate_witness :
    decide (7 = 7) = true :=
  pollUntil_result_satisfies_predicate (fun _ => 7) (fun n => decide (n = 7))
    30000 1000 (by omega) none 7 (by rw [pollUntil, pollLoop]; simp)

theorem pollLoop_timeout_message {α : Type} (requestFn : Nat → α) (conditionFn : α → Bool)
    (timeout interval : Nat) (hInt : 0 < interval) (errorMessage : Option String)
    (hcond : ∀ j, conditionFn (requestFn j) = false) :
    ∀ fuel i elapsed, timeout - elapsed = fuel →
      pollLoop requestFn conditionFn timeout interval hInt errorMessage i elapsed
        = .error (jsOrElse errorMessage ("Polling timeout after " ++ toString timeout ++ "ms")) := by
  intro fuel
  induction fuel using Nat.strong_induction_on with
  | _ fuel ih =>
      intro i elapsed hfuel
      rw [pollLoop]
      by_cases h1 : elapsed < timeout
      · simp only [if_pos h1, hcond i, Bool.false_eq_true, if_neg]
        exact ih (timeout - (elapsed + interval)) (by omega) (i + 1) (elapsed + interval) rfl
      · simp only [if_neg h1]

/-- C6 (amended): when the timeout elapses before the predicate succeeds,
`pollUntil` fails with an `Error` whose message is exactly the caller-supplied
message when a non-empty one is given, and otherwise — including when the
caller supplies the empty string, which JS `||` treats as falsy — the default
message naming the configured timeout; the failure is thrown, never silently
swallowed.  (The source throws a plain `Error`, not a distinct `TimeoutError`
type, and a caller-supplied message replaces — rather than augments — the
elapsed-time context.) -/
theorem pollUntil_timeout_error {α : Type} (requestFn : Nat → α)
    (conditionFn : α → Bool) (timeout interval : Nat) (hInt : 0 < interval)
    (errorMessage : Option String)
    (hcond : ∀ j, conditionFn (requestFn j) = false) :
    pollUntil requestFn conditionFn timeout interval hInt errorMessage
      = .error (jsOrElse errorMessage ("Polling timeout after " ++ toString timeout ++ "ms")) :=
  pollLoop_timeout_message requestFn conditionFn timeout interval hInt errorMessage
    hcond (timeout - 0) 0 0 rfl

/-- Witness for the amended C6 at concrete inputs: with an always-false
predicate, timeout 2 and interval 1, the caller-supplied message
`"giving up"` is thrown verbatim, while a caller-supplied empty string —
falsy under JS `||` — falls back to the default message naming the
configured timeout. -/
theorem pollUntil_timeout_error_witness :
    pollUntil (fun _ => (0 : Nat)) (fun _ => false) 2 1 (by omega) (some "giving up")
      = .error "giving up"
    ∧ pollUntil (fun _ => (0 : Nat)) (fun _ => false) 2 1 (by omega) (some "")
      = .error "Polling timeout after 2ms" :=
  ⟨pollUntil_timeout_error (fun _ => (0 : Nat)) (fun _ => false) 2 1 (by omega)
      (some "giving up") (fun _ => rfl),
    pollUntil_timeout_error (fun _ => (0 : Nat)) (fun _ => false) 2 1 (by omega)
      (some "") (fun _ => rfl)⟩

/-- Counterexample to C6 as stated: the claim says the timeout failure
carries both the elapsed time and the caller-supplied message.  At this
concrete input (predicate never true, timeout 3, interval 1, caller message
`"custom"`) the thrown error's message is exactly `"custom"`: it contains no
digit at all, so it cannot carry the elapsed time, and the error is a plain
message, not a distinct `TimeoutError` type. -/
theorem pollUntil_timeout_counterexample :
    pollUntil (fun _ => (0 : Nat)) (fun _ => false) 3 1 (by omega) (some "custom")
      = .error "custom"
    ∧ ("custom".data.all fun c => !c.isDigit) = true := by
  constructor
  · rw [pollUntil]
    rw [pollLoop]
    norm_num
    rw [pollLoop]
    norm_num
    rw [pollLoop]
    norm_num
    rw [pollLoop]
    norm_num
    rfl
  · decide

/-! ### Batch dispatcher (`APITestHelpers.batchRequests`)

Each input operation is modelled by its duration: once started at time
`t` it completes at `t + d`.  The event loop is deterministic, so the
run is a function of the duration list and the concurrency limit.  The
embedding follows the source line by line:

* starting `request()` records the start time and yields the promise's
  finish time `t + d`;
* the `executing` array holds the finish times of the promises the code
  keeps in its pool;
* when `executing.length >= concurrency` (after the push), the code
  `await`s `Promise.race(executing)` — time advances to
  `max t (min of the finish times raced)`, and a promise already
  settled resolves the race immediately — and then splices out
  `executing.findIndex(p => p === promise)`, i.e. exactly the promise
  pushed in this iteration (whether or not it was the one that
  completed), which restores the array to its state before the push;
* after the loop, `await Promise.all(executing)` advances time to the
  latest finish time still tracked by the (spliced) array.

`results.push` runs when an operation completes, so the result list at
return time contains exactly the operations whose finish time is at most
the return time. -/

def batchLoop (concurrency : Nat) : List Nat → Nat → List Nat → List Nat → (List Nat × Nat)
  | [], t, executing, starts =>
      -- `await Promise.all(executing)`
      (starts, executing.foldr max t)
  | d :: rest, t, executing, starts =>
      let fin := t + d
      let starts' := starts ++ [t]
      if concurrency ≤ executing.length + 1 then
        -- `await Promise.race(executing)` with the just-pushed promise included,
        -- then splice out the just-pushed promise
        let t' := max t (executing.foldr min fin)
        batchLoop concurrency rest t' executing starts'
      else
        batchLoop concurrency rest t (executing ++ [fin]) starts'

def batchRequests (durations : List Nat) (concurrency : Nat) : List Nat × Nat :=
  batchLoop concurrency durations 0 [] []

/-- Start time of each operation, in input order. -/
def batchStarts (durations : List Nat) (concurrency : Nat) : List Nat :=
  (batchRequests durations concurrency).1

/-- The time at which `batchRequests` returns its result list. -/
def batchReturnTime (durations : List Nat) (concurrency : Nat) : Nat :=
  (batchRequests durations concurrency).2

/-- Number of results collected when `batchRequests` returns: the operations
that have completed by the return time. -/
def batchResultsCount (durations : List Nat) (concurrency : Nat) : Nat :=
  (((batchStarts durations concurrency).zip durations).filter
    (fun p => decide (p.1 + p.2 ≤ batchReturnTime durations concurrency))).length

/-- Number of operations started but not yet completed at instant `t`. -/
def batchInFlight (durations : List Nat) (concurrency : Nat) (t : Nat) : Nat :=
  (((batchStarts durations concurrency).zip durations).filter
    (fun p => decide (p.1 ≤ t) && decide (t < p.1 + p.2))).length

/-- C1 fails on the code: with four operations of durations 1, 10, 10, 10 and
concurrency 2, `batchRequests` returns at time 1 — before operations 2–4 have
completed — with a single collected result instead of four.  After the first
race, a settled promise stays in `executing` (the splice removes the
just-pushed promise instead of the completed one), so every later race
resolves immediately and the final `Promise.all` no longer covers the
still-running operations. -/
theorem batchRequests_loses_results :
    batchResultsCount [1, 10, 10, 10] 2 = 1
    ∧ ([1, 10, 10, 10] : List Nat).length = 4
    ∧ batchReturnTime [1, 10, 10, 10] 2 = 1
    ∧ batchStarts [1, 10, 10, 10] 2 = [0, 0, 1, 1] := by
  decide

/-- C5 fails on the code: in the same run (durations 1, 10, 10, 10,
concurrency 2), at instant 1 three operations are started and unfinished,
exceeding the concurrency limit 2. -/
theorem batchRequests_exceeds_concurrency :
    batchInFlight [1, 10, 10, 10] 2 1 = 3 ∧ 2 < batchInFlight [1, 10, 10, 10] 2 1 := by
  decide

/-! ### Request/response interceptor (`APIInterceptor`)

`Date.now()` and `Math.random()` are inputs of the embedding: each call
takes the current clock value (`now`) and, for `logRequest`, the random
component (`rand`) of the generated correlation token
`` `${Date.now()}-${Math.random()}` ``.  The `startTimes` JavaScript
`Map` is an association list with the `Map`'s get/set/delete
observations.  Response bodies, `statusText` and headers are not needed
by the claims and are not modelled; a response is its status, and the
recorded `duration` is `Date.now() - startTime` (an `Int`, as JS
subtraction).  `getStatistics`'s `slowestRequest`/`fastestRequest` and
the status-code histogram are likewise not modelled. -/

structure RequestLog where
  method : String
  url : String
  timestamp : Nat
deriving DecidableEq, Repr

structure ResponseLog where
  status : Nat
  duration : Int
  timestamp : Nat
deriving DecidableEq, Repr

structure APICallLog where
  request : RequestLog
  response : Option ResponseLog
  error : Option String
deriving DecidableEq, Repr

structure InterceptorState where
  logs : List APICallLog
  enabled : Bool
  startTimes : List (String × Nat)
deriving DecidableEq, Repr

def emptyInterceptor : InterceptorState :=
  { logs := [], enabled := false, startTimes := [] }

/-- JS `Map.set`: afterwards the key maps to the value, other keys unchanged. -/
def mapSet (k : String) (v : Nat) (m : List (String × Nat)) : List (String × Nat) :=
  (k, v) :: m.filter (fun p => p.1 ≠ k)

/-- JS `Map.delete`. -/
def mapDelete (k : String) (m : List (String × Nat)) : List (String × Nat) :=
  m.filter (fun p => p.1 ≠ k)

/-- `Array.prototype.find` followed by mutation of the found element:
update the first element satisfying `p`, leave the rest unchanged. -/
def updateFirst (p : APICallLog → Bool) (f : APICallLog → APICallLog) :
    List APICallLog → List APICallLog
  | [] => []
  | l :: ls => if p l then f l :: ls else l :: updateFirst p f ls

def logRequest (st : InterceptorState) (method url : String) (now : Nat)
    (rand : String) : InterceptorState × String :=
  if !st.enabled then (st, "")
  else
    let requestId := toString now ++ "-" ++ rand
    ({ st with
        startTimes := mapSet requestId now st.startTimes,
        logs := st.logs
          ++ [{ request := { method := method, url := url, timestamp := now },
                response := none, error := none }] },
      requestId)

def logResponse (st : InterceptorState) (requestId : String) (status : Nat)
    (now : Nat) : InterceptorState :=
  if !st.enabled then st
  else
    -- `const startTime = this.startTimes.get(requestId) || Date.now()`
    -- (JS `||`: a stored 0 is falsy and also falls back to `Date.now()`)
    let startTime : Nat :=
      match st.startTimes.lookup requestId with
      | some v => if v = 0 then now else v
      | none => now
    let duration : Int := (now : Int) - (startTime : Int)
    -- `this.logs.find(l => l.request.timestamp === startTime)`
    let logs' := updateFirst (fun l => l.request.timestamp = startTime)
      (fun l => { l with
        response := some { status := status, duration := duration, timestamp := now } })
      st.logs
    { st with logs := logs', startTimes := mapDelete requestId st.startTimes }

def logError (st : InterceptorState) (requestId : String) (errMsg : String) :
    InterceptorState :=
  if !st.enabled then st
  else
    -- `const startTime = this.startTimes.get(requestId)` (no fallback):
    -- a missing token makes the `find` match nothing
    let logs' :=
      match st.startTimes.lookup requestId with
      | some v => updateFirst (fun l => l.request.timestamp = v)
          (fun l => { l with error := some errMsg }) st.logs
      | none => st.logs
    { st with logs := logs', startTimes := mapDelete requestId st.startTimes }

def getLogs (st : InterceptorState) : List APICallLog :=
  st.logs

/-- The C4 scenario: interceptor enabled; two requests are logged in the same
millisecond (`Date.now() = 100`, random parts "r1" and "r2"), then each of the
two returned tokens is passed to exactly one `logResponse` call. -/
def c4AfterFirstResponse : InterceptorState :=
  let st0 : InterceptorState := { emptyInterceptor with enabled := true }
  let r1 := logRequest st0 "GET" "/a" 100 "r1"
  let r2 := logRequest r1.1 "GET" "/b" 100 "r2"
  -- the response for the SECOND token arrives first
  logResponse r2.1 r2.2 200 150

def c4AfterSecondResponse : InterceptorState :=
  let st0 : InterceptorState := { emptyInterceptor with enabled := true }
  let r1 := logRequest st0 "GET" "/a" 100 "r1"
  let r2 := logRequest r1.1 "GET" "/b" 100 "r2"
  logResponse (logResponse r2.1 r2.2 200 150) r1.2 201 160

/-- C4 fails on the code: `logResponse` locates the log entry by the request
timestamp, not by the correlation token.  With two requests logged in the
same millisecond and each token passed to exactly one `logResponse` call, the
first entry (`/a`) receives the response sent for the second token (status
200), then has its response overwritten by the response for the first token
(status 201) — set twice — while the second entry (`/b`) never receives any
response. -/
theorem logResponse_mismatches_token :
    (c4AfterFirstResponse.logs.map fun l => (l.request.url, l.response.map (·.status)))
      = [("/a", some 200), ("/b", none)]
    ∧ (c4AfterSecondResponse.logs.map fun l => (l.request.url, l.response.map (·.status)))
      = [("/a", some 201), ("/b", none)] := by
  constructor <;> rfl

/-! ### Statistics (`APIInterceptor.getStatistics`)

The `forEach` accumulates success/failure counts and the total duration
of the entries that have a response; `averageResponseTime` is
`totalDuration / this.logs.length` (JS real division, embedded as `ℚ`),
after an early return of all-zero statistics when there are no logs. -/

structure Statistics where
  totalRequests : Nat
  successfulRequests : Nat
  failedRequests : Nat
  averageResponseTime : ℚ
deriving Repr

/-- One `forEach` step over `(successfulRequests, failedRequests, totalDuration)`. -/
def statsStep (acc : Nat × Nat × Int) (log : APICallLog) : Nat × Nat × Int :=
  match log.response with
  | some resp =>
      if 200 ≤ resp.status ∧ resp.status < 400 then
        (acc.1 + 1, acc.2.1, acc.2.2 + resp.duration)
      else
        (acc.1, acc.2.1 + 1, acc.2.2 + resp.duration)
  | none =>
      if log.error.isSome then (acc.1, acc.2.1 + 1, acc.2.2) else acc

def getStatistics (logs : List APICallLog) : Statistics :=
  if logs.length = 0 then
    { totalRequests := logs.length, successfulRequests := 0, failedRequests := 0,
      averageResponseTime := 0 }
  else
    let acc := logs.foldl statsStep (0, 0, 0)
    { totalRequests := logs.length, successfulRequests := acc.1,
      failedRequests := acc.2.1,
      averageResponseTime := (acc.2.2 : ℚ) / (logs.length : ℚ) }

/-- The durations of exactly the log entries that have a response. -/
def respondedDurations (logs : List APICallLog) : List Int :=
  logs.filterMap (fun l => l.response.map (·.duration))

theorem statsFold_totalDuration (logs : List APICallLog) :
    ∀ acc : Nat × Nat × Int,
      (logs.foldl statsStep acc).2.2 = acc.2.2 + (respondedDurations logs).sum := by
  induction logs with
  | nil => intro acc; simp [respondedDurations]
  | cons l ls ih =>
      intro acc
      rw [List.foldl_cons, ih]
      have hstep : (statsStep acc l).2.2
          = acc.2.2 + ((respondedDurations [l]).sum) := by
        unfold statsStep respondedDurations
        cases hr : l.response with
        | none => cases hl : l.error.isSome <;> simp [hr, hl]
        | some resp =>
            by_cases hs : 200 ≤ resp.status ∧ resp.status < 400 <;>
              simp [hr, hs]
      rw [hstep]
      unfold respondedDurations
      cases hr : l.response with
      | none => simp [hr]
      | some resp => simp [hr]; ring

/-- C10 (amended): `getStatistics` computes `averageResponseTime` as the sum
of durations over only the entries that have a response, divided by the total
number of log entries (including error entries and entries with no outcome
yet), and 0 when there are no logs; consequently, whenever at least one entry
lacks a response AND the responded entries' total duration is positive, the
reported average is strictly less than the mean duration of the responded
entries. -/
theorem getStatistics_average (logs : List APICallLog) :
    (getStatistics logs).averageResponseTime
      = (if logs.length = 0 then 0
         else ((respondedDurations logs).sum : ℚ) / (logs.length : ℚ))
    ∧ ((respondedDurations logs).length < logs.length
        ∧ 0 < (respondedDurations logs).sum →
        (getStatistics logs).averageResponseTime
          < ((respondedDurations logs).sum : ℚ)
            / ((respondedDurations logs).length : ℚ)) := by
  have havg : (getStatistics logs).averageResponseTime
      = (if logs.length = 0 then 0
         else ((respondedDurations logs).sum : ℚ) / (logs.length : ℚ)) := by
    unfold getStatistics
    by_cases h : logs.length = 0
    · simp [h]
    · simp only [h, if_neg, if_false]
      rw [statsFold_totalDuration logs (0, 0, 0)]
      norm_num
  refine ⟨havg, ?_⟩
  rintro ⟨hlt, hpos⟩
  have hlen : logs.length ≠ 0 := by omega
  have hm : (respondedDurations logs).length ≠ 0 := by
    intro h0
    rw [List.length_eq_zero] at h0
    rw [h0] at hpos
    simp at hpos
  rw [havg, if_neg hlen]
  have hT : (0 : ℚ) < ((respondedDurations logs).sum : ℚ) := by
    exact_mod_cast hpos
  have hn : (0 : ℚ) < (logs.length : ℚ) := by
    exact_mod_cast Nat.pos_of_ne_zero hlen
  have hmq : (0 : ℚ) < ((respondedDurations logs).length : ℚ) := by
    exact_mod_cast Nat.pos_of_ne_zero hm
  exact (div_lt_div_iff_of_pos_left hT hn hmq).mpr (by exact_mod_cast hlt)

/-- Witness for the amended C10 at a concrete input: one responded entry of
duration 4 and one entry with no outcome give a reported average of 2, which
is strictly below the responded mean 4. -/
def c10WitnessLogs : List APICallLog :=
  [{ request := { method := "GET", url := "/w1", timestamp := 0 },
     response := some { status := 200, duration := 4, timestamp := 4 }, error := none },
   { request := { method := "GET", url := "/w2", timestamp := 1 },
     response := none, error := none }]

theorem getStatistics_average_witness :
    (getStatistics c10WitnessLogs).averageResponseTime
      < ((respondedDurations c10WitnessLogs).sum : ℚ)
        / ((respondedDurations c10WitnessLogs).length : ℚ) :=
  (getStatistics_average c10WitnessLogs).2 (by decide)

/-- Counterexample to C10 as stated: the claim says the reported average is
strictly below the responded mean whenever at least one entry lacks a
response.  With one responded entry of duration 0 and one entry with no
outcome, both the reported average (0 / 2) and the responded mean (0 / 1)
are 0, so the strict inequality fails. -/
def c10CounterLogs : List APICallLog :=
  [{ request := { method := "GET", url := "/x", timestamp := 0 },
     response := some { status := 200, duration := 0, timestamp := 0 }, error := none },
   { request := { method := "GET", url := "/y", timestamp := 1 },
     response := none, error := none }]

theorem getStatistics_average_counterexample :
    (respondedDurations c10CounterLogs).length < c10CounterLogs.length
    ∧ ¬ ((getStatistics c10CounterLogs).averageResponseTime
        < ((respondedDurations c10CounterLogs).sum : ℚ)
          / ((respondedDurations c10CounterLogs).length : ℚ)) := by
  constructor
  · decide
  · have h1 : (getStatistics c10CounterLogs).averageResponseTime = 0 := by
      norm_num [getStatistics, c10CounterLogs, statsStep]
    have h2 : ((respondedDurations c10CounterLogs).sum : ℚ) = 0 := by
      simp [respondedDurations, c10CounterLogs, List.filterMap_cons, List.filterMap_nil]
    rw [h1, h2]
    simp

/-! ### Response validator (`APIResponseValidator`)

Decoded JSON bodies are values of an arbitrary type with decidable
equality; JS deep equality (`expect(..).toEqual`) on decoded JSON is
structural equality of the decoded values.  The `ajv` engine is
external to the repository: a compiled schema validator is abstracted
as a function from the decoded body to the list of violations that ajv
(configured with `allErrors: true`) reports, the empty list meaning the
body is valid.  The compiled-validator cache stores `compile schema`
under the schema's key, so the get-or-create step always yields the
function `compile schema`, which the embedding uses directly. -/

structure AjvError where
  instancePath : String
  message : String
deriving DecidableEq, Repr

/-- `Array.prototype.join(', ')`. -/
def joinComma : List String → String
  | [] => ""
  | [s] => s
  | s :: rest => s ++ ", " ++ joinComma rest

def validateSchema {Schema Json : Type} (compile : Schema → (Json → List AjvError))
    (schema : Schema) (body : Json) : Except String Json :=
  let validate := compile schema
  let errors := validate body
  if errors.isEmpty then
    .ok body
  else
    .error ("Schema validation failed: "
      ++ joinComma (errors.map (fun e => e.instancePath ++ " " ++ e.message)))

theorem joinComma_mem_infix (x : String) :
    ∀ l : List String, x ∈ l →
      ∃ pre post : List Char, (joinComma l).data = pre ++ x.data ++ post := by
  intro l
  induction l with
  | nil => intro h; cases h
  | cons s rest ih =>
      intro hmem
      cases rest with
      | nil =>
          rcases List.mem_singleton.mp hmem with rfl
          exact ⟨[], [], by simp [joinComma]⟩
      | cons s2 rest2 =>
          have hjoin : joinComma (s :: s2 :: rest2)
              = s ++ ", " ++ joinComma (s2 :: rest2) := rfl
          rcases List.mem_cons.mp hmem with rfl | hmem2
          · exact ⟨[], (", " ++ joinComma (s2 :: rest2)).data, by
              rw [hjoin]
              simp [String.data_append]⟩
          · obtain ⟨pre, post, hp⟩ := ih hmem2
            refine ⟨(s ++ ", ").data ++ pre, post, ?_⟩
            rw [hjoin]
            simp [String.data_append, hp]

/-- C7: when the schema accepts the decoded body (ajv reports no violations),
`validateSchema` returns the decoded body unchanged; when the schema rejects
it, it throws a schema-validation error whose message contains, for every
violated field, the field's instance path and the violated rule's message —
not only the first violation. -/
theorem validateSchema_spec {Schema Json : Type}
    (compile : Schema → (Json → List AjvError)) (schema : Schema) (body : Json) :
    (compile schema body = [] → validateSchema compile schema body = .ok body)
    ∧ (∀ e ∈ compile schema body, ∃ (msg : String) (pre post : List Char),
        validateSchema compile schema body = .error msg
        ∧ msg.data = pre ++ (e.instancePath ++ " " ++ e.message).data ++ post) := by
  constructor
  · intro h
    simp [validateSchema, h]
  · intro e he
    have hne : ((compile schema body).isEmpty) = false := by
      cases hc : compile schema body with
      | nil => exact absurd (hc ▸ he) (List.not_mem_nil e)
      | cons a l => rfl
    obtain ⟨pre, post, hp⟩ := joinComma_mem_infix (e.instancePath ++ " " ++ e.message)
      ((compile schema body).map (fun x => x.instancePath ++ " " ++ x.message))
      (List.mem_map_of_mem _ he)
    refine ⟨"Schema validation failed: "
        ++ joinComma ((compile schema body).map (fun x => x.instancePath ++ " " ++ x.message)),
      "Schema validation failed: ".data ++ pre, post, ?_, ?_⟩
    · simp [validateSchema, hne]
    · rw [String.data_append, hp]
      simp [List.append_assoc]

/-- Witness for C7 at concrete inputs: a validator reporting no violations
returns the body `0` unchanged, and a validator reporting one violation at
`/responseCode` produces an error message containing that path and rule. -/
theorem validateSchema_spec_witness :
    validateSchema (fun _ _ => ([] : List AjvError)) () (0 : Nat) = .ok 0
    ∧ ∃ (msg : String) (pre post : List Char),
        validateSchema (fun _ _ => [AjvError.mk "/responseCode" "must be number"]) () (0 : Nat)
          = .error msg
        ∧ msg.data = pre ++ ("/responseCode" ++ " " ++ "must be number").data ++ post := by
  constructor
  · exact (validateSchema_spec (fun _ _ => []) () 0).1 rfl
  · exact (validateSchema_spec (fun _ _ => [AjvError.mk "/responseCode" "must be number"]) () 0).2
      ⟨"/responseCode", "must be number"⟩ (by simp)

/-! ### Idempotency validation (`APIResponseValidator.validateIdempotency`)

The source first asserts `expect(response1.status()).toBe(response2.status())`
(throwing on mismatch), then decodes both bodies and asserts
`expect(body1).toEqual(body2)` (deep equality of the decoded JSON values,
embedded as structural equality). -/

structure APIResponseModel (β : Type) where
  status : Nat
  body : β
deriving DecidableEq

def validateIdempotency {β : Type} [DecidableEq β]
    (response1 response2 : APIResponseModel β) : Except String Unit :=
  if response1.status ≠ response2.status then
    .error "status codes differ"
  else if response1.body ≠ response2.body then
    .error "decoded bodies are not deeply equal"
  else
    .ok ()

/-- C9: `validateIdempotency(A, B)` passes (does not throw) if and only if
`A`'s status code equals `B`'s status code and `A`'s decoded JSON body is
deeply equal to `B`'s decoded JSON body. -/
theorem validateIdempotency_iff {β : Type} [DecidableEq β]
    (response1 response2 : APIResponseModel β) :
    validateIdempotency response1 response2 = .ok ()
      ↔ (response1.status = response2.status ∧ response1.body = response2.body) := by
  unfold validateIdempotency
  by_cases h1 : response1.status = response2.status <;>
    by_cases h2 : response1.body = response2.body <;>
    simp [h1, h2]
